import Mathlib

/-!
Verification of the EarningsEdgeDetection core against its specification.

The definitions below are a shallow embedding of the Python sources
`src/cli_scanner/core/analyzer.py` and `src/cli_scanner/core/scanner.py`.
Python floats are modelled as exact rationals, Python strings as `List Char`
where character-level reasoning matters, fallible computations as
`Option`/`Except`, and the mutable scanner/analyzer state as explicit
state-passing values.
-/

namespace EarningsEdge

/-! ### Ticker normalisation (analyzer.py, compute_recommendation lines 119-126)

Python strings are modelled as lists of characters; `pyStrip` models
`str.strip()` (remove leading and trailing whitespace) and `pyUpper` models
`str.upper()` (character-wise upper-casing). -/

def pyStrip (s : List Char) : List Char :=
  ((s.dropWhile Char.isWhitespace).reverse.dropWhile Char.isWhitespace).reverse

def pyUpper (s : List Char) : List Char :=
  s.map Char.toUpper

/-- The possible outcomes of the entry block of `compute_recommendation`:
either the early structured error, or proceeding to the provider lookup
`yf.Ticker(ticker)` with the normalised symbol. Any provider contact happens
only after a `.lookup` outcome. -/
inductive RecoEntry where
  | err (msg : String)
  | lookup (symbol : List Char)
  deriving DecidableEq

/-- Embeds lines 120-126 of analyzer.py: the ticker is stripped and
upper-cased, the empty result short-circuits to the structured error, and a
non-empty result is passed on to the providers. -/
def compute_recommendation_entry (ticker : List Char) : RecoEntry :=
  let t := pyUpper (pyStrip ticker)
  if t = [] then .err "No symbol provided."
  else .lookup t

/-! ### IV/RV ratio (analyzer.py line 184) -/

/-- Embeds the dictionary entry
`iv30 / hist_vol if hist_vol > 0 else 9999` of `compute_recommendation`. -/
def iv30_rv30 (iv30 hist_vol : ℚ) : ℚ :=
  if 0 < hist_vol then iv30 / hist_vol else 9999

/-! ### Term-structure slope (analyzer.py line 173)

The slope line divides by `45 - min(dtes)` with no guard; a zero denominator
raises `ZeroDivisionError` in Python, which the enclosing handler converts to
a structured error result. The raising division is modelled by `Option`:
`none` is the propagated error. -/

def compute_term_slope (term_spline : ℚ → ℚ) (min_dtes : ℚ) : Option ℚ :=
  if 45 - min_dtes = 0 then none
  else some ((term_spline 45 - term_spline min_dtes) / (45 - min_dtes))

/-! ### One-time warning latch (analyzer.py lines 24-25 and 72-76) -/

/-- The state of an `OptionsAnalyzer` instance: the `warnings_shown` flag set
in `__init__`. -/
structure OptionsAnalyzerState where
  warnings_shown : Bool
  deriving DecidableEq

/-- The freshly constructed analyzer (`__init__` sets the flag to `False`). -/
def OptionsAnalyzerState.mkNew : OptionsAnalyzerState := ⟨false⟩

/-- One call to `yang_zhang_volatility` as seen by the latch: `fellBack`
tells whether the `except` branch ran. Returns whether a warning was emitted
on this call, and the analyzer state afterwards. Embeds lines 72-76. -/
def yzWarnStep (st : OptionsAnalyzerState) (fellBack : Bool) :
    Bool × OptionsAnalyzerState :=
  if fellBack then
    if st.warnings_shown then (false, st) else (true, ⟨true⟩)
  else (false, st)

/-- A sequence of calls threaded through one analyzer instance; returns the
per-call warning emissions and the final state. -/
def yzWarnRun (st : OptionsAnalyzerState) : List Bool → List Bool × OptionsAnalyzerState
  | [] => ([], st)
  | c :: cs =>
    let p := yzWarnStep st c
    let r := yzWarnRun p.2 cs
    (p.1 :: r.1, r.2)

/-! ### Market-condition threshold adjustment (scanner.py lines 440-448 and 1056-1090) -/

/-- The mutable threshold state of `EarningsScanner`. -/
structure ScannerThresholds where
  iv_rv_pass_threshold : ℚ
  iv_rv_near_miss_threshold : ℚ
  deriving DecidableEq

/-- The values set in `__init__` (lines 445-446). -/
def scannerDefaults : ScannerThresholds := ⟨5/4, 1⟩

/-- Embeds `adjust_thresholds_based_on_spy`: the SPY analysis either fails
(the `error` key is present, or an exception was raised; both leave the state
untouched) or yields the `iv30_rv30` ratio, which is mapped through the
three-tier breakpoints. Ratios above 1.0 only log; the thresholds keep their
prior values. -/
def adjust_thresholds_based_on_spy (st : ScannerThresholds)
    (spy_analysis : Except String ℚ) : ScannerThresholds :=
  match spy_analysis with
  | .error _ => st
  | .ok spy_iv_rv =>
    if spy_iv_rv ≤ 3/4 then ⟨9/10, 13/20⟩
    else if spy_iv_rv ≤ 17/20 then ⟨1, 3/4⟩
    else if spy_iv_rv ≤ 1 then ⟨11/10, 17/20⟩
    else st

/-! ### Term structure (analyzer.py, build_term_structure lines 93-115)

The numpy argsort applied to both arrays is modelled as a stable sort of the
zipped (day, iv) pairs by day. -/

def pointLE (a b : ℚ × ℚ) : Prop := a.1 ≤ b.1

instance : DecidableRel pointLE :=
  fun a b => inferInstanceAs (Decidable (a.1 ≤ b.1))

instance : IsTotal (ℚ × ℚ) pointLE := ⟨fun a b => le_total a.1 b.1⟩

instance : IsTrans (ℚ × ℚ) pointLE := ⟨fun _ _ _ h1 h2 => le_trans h1 h2⟩

def sortedPoints (days ivs : List ℚ) : List (ℚ × ℚ) :=
  (days.zip ivs).insertionSort pointLE

/-- Piecewise-linear evaluation over points sorted by day, as performed by
the scipy linear interpolant within the sample range: locate the first
segment whose right endpoint is at or past the query and interpolate
linearly on it. -/
def interpSorted : List (ℚ × ℚ) → ℚ → ℚ
  | [], _ => 0
  | [p], _ => p.2
  | p :: q :: rest, x =>
    if x ≤ q.1 then p.2 + (x - p.1) * (q.2 - p.2) / (q.1 - p.1)
    else interpSorted (q :: rest) x

/-- The inner `term_spline` closure (lines 104-110): clamp flat below the
first and above the last sorted sample, interpolate in between. -/
def term_spline (pts : List (ℚ × ℚ)) (x : ℚ) : ℚ :=
  match pts with
  | [] => 0
  | p :: rest =>
    if x < p.1 then p.2
    else if (rest.getLastD p).1 < x then (rest.getLastD p).2
    else interpSorted (p :: rest) x

/-- Embeds `build_term_structure`: scipy interp1d requires at least two
sample points, so with fewer the constructor raises and the except branch
returns a NaN-producing lambda, modelled as `none`. -/
def build_term_structure (days ivs : List ℚ) : Option (ℚ → ℚ) :=
  if days.length < 2 then none
  else some (fun dte => term_spline (sortedPoints days ivs) dte)

/-- Query helper: the interpolant built from the data, applied at `x`. -/
def tsQuery (days ivs : List ℚ) (x : ℚ) : Option ℚ :=
  (build_term_structure days ivs).map (fun f => f x)

/-! ### Yang-Zhang volatility (analyzer.py lines 46-70) -/

structure OHLC (α : Type) where
  op : α
  hi : α
  lo : α
  cl : α
  deriving DecidableEq, Repr

/-- Sum of the last `w` entries of a series: the value of a
`rolling(window=w).sum()` at the final index, provided the window does not
reach into leading undefined entries. -/
def lastWindowSum {α : Type} [AddCommMonoid α] (w : ℕ) (xs : List α) : α :=
  (xs.drop (xs.length - w)).sum

/-- Embeds `yang_zhang_volatility` with `return_last_only=True`.  The
transcendental `log` and `sqrt` are parameters so the definition stays
computable; the theorems instantiate them with `Real.log` and `Real.sqrt`.
The series `log_oc` and `log_cc` come from a `shift(1)` and exist from the
second bar on, so the rolling sums at the last index reflect the pandas
values only when at least `window + 1` bars are present; the theorems carry
that hypothesis. -/
def yang_zhang_volatility {α : Type} [Field α] (log sqrt : α → α)
    (window : ℕ) (trading_periods : α) (price_data : List (OHLC α)) : α :=
  let prevCur := price_data.zip price_data.tail
  let log_oc_sq := prevCur.map (fun pc => log (pc.2.op / pc.1.cl) ^ 2)
  let log_cc_sq := prevCur.map (fun pc => log (pc.2.cl / pc.1.cl) ^ 2)
  let rs := price_data.map (fun b =>
    log (b.hi / b.op) * (log (b.hi / b.op) - log (b.cl / b.op)) +
      log (b.lo / b.op) * (log (b.lo / b.op) - log (b.cl / b.op)))
  let close_vol := lastWindowSum window log_cc_sq / ((window : α) - 1)
  let open_vol := lastWindowSum window log_oc_sq / ((window : α) - 1)
  let window_rs := lastWindowSum window rs / ((window : α) - 1)
  let k := (34 / 100 : α) / (134 / 100 + ((window : α) + 1) / ((window : α) - 1))
  sqrt (open_vol + k * close_vol + (1 - k) * window_rs) * sqrt trading_periods

/-! ### validate_stock (scanner.py lines 785-1054)

The per-candidate data fetched from the external providers is bundled into
`StockInput`; floats are rationals; the analysis dictionary is the
`Except`-typed `analysis` field (`error` key present means `.error`).
The metrics dictionary is an insertion-ordered association list. -/

inductive MetricKey where
  | price
  | days_to_expiry
  | open_interest
  | term_structure
  | atm_call_delta
  | atm_put_delta
  | expected_move_dollars
  | expected_move_pct
  | volume
  | win_rate
  | win_quarters
  | iv_rv_ratio
  | tier
  deriving DecidableEq, Repr

abbrev Metrics := List (MetricKey × ℚ)

/-- Python dict assignment (replace an existing binding in place, otherwise
append; insertion order is preserved). -/
def msetKey : Metrics → MetricKey → ℚ → Metrics
  | [], k, v => [(k, v)]
  | kv :: rest, k, v => if kv.1 = k then (k, v) :: rest else kv :: msetKey rest k v

/-- Python dict lookup. -/
def mget (m : Metrics) (k : MetricKey) : Option ℚ :=
  (m.find? (fun kv => decide (kv.1 = k))).map (fun kv => kv.2)

/-- The soft-gate messages appended to `failed_checks` and
`near_miss_checks`; one constructor per f-string of lines 955-1002. -/
inductive SoftMsg where
  | priceFail (price : ℚ)
  | priceNear (price : ℚ)
  | volumeFail (volume : ℚ)
  | volumeNear (volume : ℚ)
  | winrateFail (win_rate : ℚ) (quarters : ℤ)
  | winrateNear (win_rate : ℚ) (quarters : ℤ)
  | ivrvFail (ratio threshold : ℚ)
  | ivrvNear (ratio threshold : ℚ)
  deriving DecidableEq, Repr

/-- The `reason` strings of validate_stock results, one constructor per
distinct message shape. -/
inductive Reason where
  | priceBelow10 (price : ℚ)
  | noOptions
  | expiryTooFar (days : ℤ)
  | lowOpenInterest (oi : ℚ)
  | analysisError (msg : String)
  | termStructureFail (slope : ℚ)
  | deltaBounds (call_delta put_delta : ℚ)
  | expectedMoveLow (dollars : ℚ)
  | expectedMoveFallbackLow (dollars : ℚ)
  | checksJoined (msgs : List SoftMsg)
  | tier1Trade
  | tier2Trade
  | nearMissTag
  deriving DecidableEq, Repr

/-- The `expected_move` field of the analysis dictionary: the literal
string `N/A`, a percentage string that parses to `value`, or a string whose
`float()` conversion raises. -/
inductive ExpectedMoveField where
  | na
  | pct (value : ℚ)
  | unparsable
  deriving DecidableEq, Repr

structure AnalysisOut where
  term_slope : ℚ
  atm_call_delta : Option ℚ
  atm_put_delta : Option ℚ
  expected_move : ExpectedMoveField
  iv30_rv30 : ℚ
  deriving Repr

structure StockInput where
  price : ℚ
  hasOptions : Bool
  daysToExpiry : ℤ
  totalOI : ℚ
  analysis : Except String AnalysisOut
  fallbackStraddle : Option ℚ
  avgVolume : ℚ
  winRate : ℚ
  winQuarters : ℤ

structure VResult where
  pass : Bool
  tier : Option ℤ
  near_miss : Bool
  reason : Reason
  metrics : Metrics
  deriving DecidableEq, Repr

/-- Soft-check accumulation (lines 955-1002): returns the `failed_checks`
list, the `near_miss_checks` list and the updated metrics. -/
def softChecks (passThr nearThr : ℚ) (inp : StockInput) (a : AnalysisOut)
    (m : Metrics) : List SoftMsg × List SoftMsg × Metrics :=
  let m1 := msetKey m .price inp.price
  let failed1 : List SoftMsg := if inp.price < 5 then [.priceFail inp.price] else []
  let near1 : List SoftMsg :=
    if inp.price < 5 then [] else if inp.price < 7 then [.priceNear inp.price] else []
  let m2 := msetKey m1 .volume inp.avgVolume
  let failed2 := failed1 ++
    (if inp.avgVolume < 1000000 then [SoftMsg.volumeFail inp.avgVolume] else [])
  let near2 := near1 ++
    (if inp.avgVolume < 1000000 then []
     else if inp.avgVolume < 1500000 then [SoftMsg.volumeNear inp.avgVolume] else [])
  let mcSkip := !failed2.isEmpty
  let m3 :=
    if mcSkip then msetKey (msetKey m2 .win_rate 0) .win_quarters 0
    else msetKey (msetKey m2 .win_rate inp.winRate) .win_quarters (inp.winQuarters : ℚ)
  let failed3 := failed2 ++
    (if mcSkip then []
     else if inp.winRate < 50 then
       (if 40 ≤ inp.winRate then [] else [SoftMsg.winrateFail inp.winRate inp.winQuarters])
     else [])
  let near3 := near2 ++
    (if mcSkip then []
     else if inp.winRate < 50 then
       (if 40 ≤ inp.winRate then [SoftMsg.winrateNear inp.winRate inp.winQuarters] else [])
     else [])
  let ratio := a.iv30_rv30
  let m4 := msetKey m3 .iv_rv_ratio ratio
  let failed4 := failed3 ++
    (if ratio < nearThr then [SoftMsg.ivrvFail ratio nearThr] else [])
  let near4 := near3 ++
    (if ratio < nearThr then []
     else if ratio < passThr then [SoftMsg.ivrvNear ratio passThr] else [])
  (failed4, near4, m4)

/-- Final categorisation (lines 1004-1045). -/
def classifyCandidate (failed_checks near_miss_checks : List SoftMsg)
    (term_slope : ℚ) (m : Metrics) : VResult :=
  let is_passing := failed_checks.isEmpty && near_miss_checks.isEmpty
  let is_near_miss_good_term :=
    failed_checks.isEmpty && !near_miss_checks.isEmpty && decide (term_slope ≤ -6/1000)
  let tm :=
    if is_passing then ((1 : ℤ), false, false)
    else if is_near_miss_good_term then ((2 : ℤ), true, false)
    else ((0 : ℤ), false, failed_checks.isEmpty)
  { pass := is_passing || tm.2.1
    tier := some tm.1
    near_miss := tm.2.2
    reason :=
      if !failed_checks.isEmpty then .checksJoined failed_checks
      else if !near_miss_checks.isEmpty then .checksJoined near_miss_checks
      else if is_passing then .tier1Trade
      else if tm.2.1 then .tier2Trade
      else .nearMissTag
    metrics := msetKey m .tier (tm.1 : ℚ) }

/-- Expected-move hard gate (lines 893-953).  A parsable percentage is
converted to dollars from the current price; an unparsable value triggers
the straddle fallback (whose own failure is `none` and silently skips the
gate); the literal `N/A` skips the gate. -/
def expectedMoveGate (passThr nearThr : ℚ) (inp : StockInput) (a : AnalysisOut)
    (m : Metrics) : VResult :=
  match a.expected_move with
  | .na =>
    let sc := softChecks passThr nearThr inp a m
    classifyCandidate sc.1 sc.2.1 a.term_slope sc.2.2
  | .pct q =>
    let move_pct := q / 100
    let emd := inp.price * move_pct
    let m1 := msetKey (msetKey m .expected_move_dollars emd) .expected_move_pct (move_pct * 100)
    if emd < 9/10 then
      { pass := false, tier := none, near_miss := false
        reason := .expectedMoveLow emd, metrics := m1 }
    else
      let sc := softChecks passThr nearThr inp a m1
      classifyCandidate sc.1 sc.2.1 a.term_slope sc.2.2
  | .unparsable =>
    match inp.fallbackStraddle with
    | none =>
      let sc := softChecks passThr nearThr inp a m
      classifyCandidate sc.1 sc.2.1 a.term_slope sc.2.2
    | some straddle =>
      let m1 := msetKey (msetKey m .expected_move_dollars straddle)
        .expected_move_pct (straddle / inp.price * 100)
      if straddle < 9/10 then
        { pass := false, tier := none, near_miss := false
          reason := .expectedMoveFallbackLow straddle, metrics := m1 }
      else
        let sc := softChecks passThr nearThr inp a m1
        classifyCandidate sc.1 sc.2.1 a.term_slope sc.2.2

/-- ATM-delta hard gate (lines 866-891); runs only when both deltas are
available. -/
def deltaGate (passThr nearThr : ℚ) (inp : StockInput) (a : AnalysisOut)
    (m : Metrics) : VResult :=
  match a.atm_call_delta, a.atm_put_delta with
  | some cd, some pd =>
    let m1 := msetKey (msetKey m .atm_call_delta cd) .atm_put_delta pd
    if 57/100 < cd ∨ 57/100 < |pd| then
      { pass := false, tier := none, near_miss := false
        reason := .deltaBounds cd pd, metrics := m1 }
    else expectedMoveGate passThr nearThr inp a m1
  | _, _ => expectedMoveGate passThr nearThr inp a m

/-- Whether the delta gate fires for a given analysis output. -/
def deltaGateFires (a : AnalysisOut) : Bool :=
  match a.atm_call_delta, a.atm_put_delta with
  | some cd, some pd => decide (57/100 < cd) || decide (57/100 < |pd|)
  | _, _ => false

/-- Whether the expected-move gate (lines 893-953) fires for a given
candidate: a parsable percentage below the 0.90 dollar line, or an
unparsable one whose straddle fallback lands below that line. -/
def expectedMoveGateFires (inp : StockInput) (a : AnalysisOut) : Bool :=
  match a.expected_move with
  | .na => false
  | .pct q => decide (inp.price * (q / 100) < 9/10)
  | .unparsable =>
    match inp.fallbackStraddle with
    | none => false
    | some straddle => decide (straddle < 9/10)

/-- Embeds `validate_stock` (lines 785-1045) on a run in which the external
fetches succeed (exceptions raised by the providers land in the outer
handler of lines 1047-1054, outside this embedding).  The hard gates are
evaluated in source order, each early return carrying exactly the metrics
dictionary the code constructs at that return site. -/
def validate_stock (passThr nearThr : ℚ) (inp : StockInput) : VResult :=
  if inp.price < 10 then
    { pass := false, tier := none, near_miss := false
      reason := .priceBelow10 inp.price, metrics := [(.price, inp.price)] }
  else if !inp.hasOptions then
    { pass := false, tier := none, near_miss := false
      reason := .noOptions, metrics := [(.price, inp.price)] }
  else if 9 < inp.daysToExpiry then
    { pass := false, tier := none, near_miss := false
      reason := .expiryTooFar inp.daysToExpiry
      metrics := [(.price, inp.price), (.days_to_expiry, (inp.daysToExpiry : ℚ))] }
  else if inp.totalOI < 2000 then
    { pass := false, tier := none, near_miss := false
      reason := .lowOpenInterest inp.totalOI
      metrics := [(.price, inp.price), (.open_interest, inp.totalOI)] }
  else
    let m1 := msetKey (msetKey (msetKey [] .price inp.price) .open_interest inp.totalOI)
      .days_to_expiry (inp.daysToExpiry : ℚ)
    match inp.analysis with
    | .error e =>
      { pass := false, tier := none, near_miss := false
        reason := .analysisError e, metrics := [] }
    | .ok a =>
      let m2 := msetKey m1 .term_structure a.term_slope
      if -4/1000 < a.term_slope then
        { pass := false, tier := none, near_miss := false
          reason := .termStructureFail a.term_slope, metrics := m2 }
      else deltaGate passThr nearThr inp a m2

/-! ## Helper lemmas -/

theorem yzWarnRun_flag (calls : List Bool) :
    ∀ st : OptionsAnalyzerState,
      (yzWarnRun st calls).2.warnings_shown = (st.warnings_shown || calls.any id) := by
  induction calls with
  | nil => intro st; simp [yzWarnRun]
  | cons c cs ih =>
    intro st
    have hstep : (yzWarnStep st c).2.warnings_shown = (st.warnings_shown || c) := by
      rcases st with ⟨ws⟩
      cases c <;> cases ws <;> simp [yzWarnStep]
    simp only [yzWarnRun, ih, hstep, List.any_cons, id]
    cases c <;> cases h : st.warnings_shown <;> simp

theorem yzWarnRun_silent (calls : List Bool) :
    ∀ st : OptionsAnalyzerState, st.warnings_shown = true →
      (yzWarnRun st calls).1.count true = 0 := by
  induction calls with
  | nil => intro st _; simp [yzWarnRun]
  | cons c cs ih =>
    intro st hst
    rcases st with ⟨ws⟩
    cases ws with
    | false => simp at hst
    | true =>
      cases c <;>
        simpa [yzWarnRun, yzWarnStep] using ih ⟨true⟩ rfl

theorem yzWarnRun_count_le (calls : List Bool) :
    ∀ st : OptionsAnalyzerState, (yzWarnRun st calls).1.count true ≤ 1 := by
  induction calls with
  | nil => intro st; simp [yzWarnRun]
  | cons c cs ih =>
    intro st
    rcases st with ⟨ws⟩
    cases ws with
    | true => exact le_of_eq_of_le (yzWarnRun_silent (c :: cs) ⟨true⟩ rfl) (by norm_num)
    | false =>
      cases c with
      | false => simpa [yzWarnRun, yzWarnStep] using ih ⟨false⟩
      | true =>
        have h0 := yzWarnRun_silent cs ⟨true⟩ rfl
        simp [yzWarnRun, yzWarnStep, h0]

theorem sorted_le_getLastD :
    ∀ (l : List (ℚ × ℚ)) (x0 : ℚ × ℚ), List.Sorted pointLE (x0 :: l) →
      ∀ a ∈ x0 :: l, pointLE a (l.getLastD x0)
  | [], x0, _, a, ha => by
    simp only [List.getLastD_nil]
    rcases List.mem_singleton.mp ha with rfl
    exact le_refl a.1
  | y :: t, x0, hs, a, ha => by
    rw [List.getLastD_cons]
    rcases List.mem_cons.mp ha with rfl | ha2
    · exact List.rel_of_sorted_cons hs _ (List.getLastD_mem_cons t y)
    · exact sorted_le_getLastD t y hs.of_cons a ha2

theorem interpSorted_adjacent (x : ℚ) :
    ∀ (l₁ : List (ℚ × ℚ)) (p q : ℚ × ℚ) (l₂ : List (ℚ × ℚ)),
      List.Sorted pointLE (l₁ ++ p :: q :: l₂) → p.1 < x → x < q.1 →
      interpSorted (l₁ ++ p :: q :: l₂) x =
        p.2 + (x - p.1) * (q.2 - p.2) / (q.1 - p.1) := by
  intro l₁
  induction l₁ with
  | nil =>
    intro p q l₂ _ _ hq
    simp [interpSorted, le_of_lt hq]
  | cons a t ih =>
    intro p q l₂ hs hp hq
    have hs2 : List.Sorted pointLE (t ++ p :: q :: l₂) := by
      rw [List.cons_append] at hs
      exact hs.of_cons
    cases hl : t ++ p :: q :: l₂ with
    | nil => simp at hl
    | cons b rest =>
      have hpmem : p ∈ b :: rest := by
        rw [← hl]
        exact List.mem_append_right t (List.mem_cons_self p _)
      have hbp : pointLE b p := by
        rcases List.mem_cons.mp hpmem with h | h
        · rw [h]
          exact le_refl b.1
        · exact List.rel_of_sorted_cons (hl ▸ hs2) p h
      have hbx : b.1 < x := lt_of_le_of_lt hbp hp
      have hsplit : (a :: t) ++ p :: q :: l₂ = a :: b :: rest := by
        rw [List.cons_append, hl]
      rw [hsplit]
      show interpSorted (a :: b :: rest) x = _
      rw [show interpSorted (a :: b :: rest) x =
          if x ≤ b.1 then a.2 + (x - a.1) * (b.2 - a.2) / (b.1 - a.1)
          else interpSorted (b :: rest) x from rfl]
      rw [if_neg (not_le.mpr hbx), ← hl]
      exact ih p q l₂ hs2 hp hq

theorem term_spline_adjacent (x : ℚ) (l₁ : List (ℚ × ℚ)) (p q : ℚ × ℚ)
    (l₂ : List (ℚ × ℚ)) (hs : List.Sorted pointLE (l₁ ++ p :: q :: l₂))
    (hp : p.1 < x) (hq : x < q.1) :
    term_spline (l₁ ++ p :: q :: l₂) x =
      p.2 + (x - p.1) * (q.2 - p.2) / (q.1 - p.1) := by
  cases hl : l₁ ++ p :: q :: l₂ with
  | nil => simp at hl
  | cons h0 rest =>
    have hsort : List.Sorted pointLE (h0 :: rest) := hl ▸ hs
    have hpmem : p ∈ h0 :: rest := by
      rw [← hl]
      exact List.mem_append_right l₁ (List.mem_cons_self p _)
    have hqmem : q ∈ h0 :: rest := by
      rw [← hl]
      exact List.mem_append_right l₁ (List.mem_cons_of_mem p (List.mem_cons_self q _))
    have h0p : pointLE h0 p := by
      rcases List.mem_cons.mp hpmem with h | h
      · rw [h]
        exact le_refl h0.1
      · exact List.rel_of_sorted_cons hsort p h
    have hnotlow : ¬ x < h0.1 := not_lt.mpr (le_of_lt (lt_of_le_of_lt h0p hp))
    have hqlast : pointLE q (rest.getLastD h0) := sorted_le_getLastD rest h0 hsort q hqmem
    have hnothigh : ¬ (rest.getLastD h0).1 < x :=
      not_lt.mpr (le_of_lt (lt_of_lt_of_le hq hqlast))
    show (if x < h0.1 then h0.2
      else if (rest.getLastD h0).1 < x then (rest.getLastD h0).2
      else interpSorted (h0 :: rest) x) = _
    rw [if_neg hnotlow, if_neg hnothigh, ← hl]
    exact interpSorted_adjacent x l₁ p q l₂ hs hp hq


theorem mget_msetKey_self (m : Metrics) (k : MetricKey) (v : ℚ) :
    mget (msetKey m k v) k = some v := by
  induction m with
  | nil => simp [msetKey, mget, List.find?]
  | cons kv rest ih =>
    by_cases h : kv.1 = k
    · simp [msetKey, h, mget, List.find?]
    · simp only [msetKey, if_neg h]
      simpa [mget, List.find?, h] using ih

theorem mget_msetKey_of_ne (m : Metrics) (k k2 : MetricKey) (v : ℚ) (h : k2 ≠ k) :
    mget (msetKey m k v) k2 = mget m k2 := by
  induction m with
  | nil => simp [msetKey, mget, List.find?, Ne.symm h]
  | cons kv rest ih =>
    by_cases hkv : kv.1 = k
    · simp only [msetKey, if_pos hkv]
      simp [mget, List.find?, Ne.symm h, hkv]
    · simp only [msetKey, if_neg hkv]
      by_cases hkv2 : kv.1 = k2
      · simp [mget, List.find?, hkv2]
      · simpa [mget, List.find?, hkv2] using ih

theorem softChecks_metrics_eq (pt nt : ℚ) (inp : StockInput) (a : AnalysisOut)
    (m : Metrics) :
    (softChecks pt nt inp a m).2.2 =
      msetKey
        (if !((if inp.price < 5 then [SoftMsg.priceFail inp.price] else []) ++
            (if inp.avgVolume < 1000000 then [SoftMsg.volumeFail inp.avgVolume] else [])).isEmpty
         then msetKey (msetKey (msetKey (msetKey m .price inp.price) .volume inp.avgVolume)
            .win_rate 0) .win_quarters 0
         else msetKey (msetKey (msetKey (msetKey m .price inp.price) .volume inp.avgVolume)
            .win_rate inp.winRate) .win_quarters (inp.winQuarters : ℚ))
        .iv_rv_ratio a.iv30_rv30 := rfl

theorem softChecks_metrics_shape (pt nt : ℚ) (inp : StockInput) (a : AnalysisOut)
    (m : Metrics) :
    ∃ wr wq : ℚ, (softChecks pt nt inp a m).2.2 =
      msetKey (msetKey (msetKey (msetKey (msetKey m .price inp.price)
        .volume inp.avgVolume) .win_rate wr) .win_quarters wq)
        .iv_rv_ratio a.iv30_rv30 := by
  rw [softChecks_metrics_eq]
  by_cases hC : (!((if inp.price < 5 then [SoftMsg.priceFail inp.price] else []) ++
      (if inp.avgVolume < 1000000 then [SoftMsg.volumeFail inp.avgVolume] else [])).isEmpty)
      = true
  · rw [if_pos hC]
    exact ⟨0, 0, rfl⟩
  · rw [if_neg hC]
    exact ⟨inp.winRate, (inp.winQuarters : ℚ), rfl⟩

theorem classifyCandidate_metrics_eq (f n : List SoftMsg) (slope : ℚ) (m : Metrics) :
    (classifyCandidate f n slope m).metrics =
      msetKey m .tier
        (((if f.isEmpty && n.isEmpty then ((1 : ℤ), false, false)
           else if f.isEmpty && !n.isEmpty && decide (slope ≤ -6/1000) then ((2 : ℤ), true, false)
           else ((0 : ℤ), false, f.isEmpty)).1 : ℚ)) := rfl

theorem softClassify_mget_of_ne (pt nt : ℚ) (inp : StockInput) (a : AnalysisOut)
    (m : Metrics) (k : MetricKey) (h1 : k ≠ .price) (h2 : k ≠ .volume)
    (h3 : k ≠ .win_rate) (h4 : k ≠ .win_quarters) (h5 : k ≠ .iv_rv_ratio)
    (h6 : k ≠ .tier) :
    mget (classifyCandidate (softChecks pt nt inp a m).1 (softChecks pt nt inp a m).2.1
      a.term_slope (softChecks pt nt inp a m).2.2).metrics k = mget m k := by
  obtain ⟨wr, wq, heq⟩ := softChecks_metrics_shape pt nt inp a m
  rw [classifyCandidate_metrics_eq, mget_msetKey_of_ne _ _ _ _ h6, heq,
    mget_msetKey_of_ne _ _ _ _ h5, mget_msetKey_of_ne _ _ _ _ h4,
    mget_msetKey_of_ne _ _ _ _ h3, mget_msetKey_of_ne _ _ _ _ h2,
    mget_msetKey_of_ne _ _ _ _ h1]

theorem softClassify_mget_records (pt nt : ℚ) (inp : StockInput) (a : AnalysisOut)
    (m : Metrics) :
    mget (classifyCandidate (softChecks pt nt inp a m).1 (softChecks pt nt inp a m).2.1
        a.term_slope (softChecks pt nt inp a m).2.2).metrics .price = some inp.price
    ∧ mget (classifyCandidate (softChecks pt nt inp a m).1 (softChecks pt nt inp a m).2.1
        a.term_slope (softChecks pt nt inp a m).2.2).metrics .volume = some inp.avgVolume
    ∧ mget (classifyCandidate (softChecks pt nt inp a m).1 (softChecks pt nt inp a m).2.1
        a.term_slope (softChecks pt nt inp a m).2.2).metrics .iv_rv_ratio
        = some a.iv30_rv30
    ∧ (∃ t, mget (classifyCandidate (softChecks pt nt inp a m).1
        (softChecks pt nt inp a m).2.1 a.term_slope
        (softChecks pt nt inp a m).2.2).metrics .tier = some t) := by
  obtain ⟨wr, wq, heq⟩ := softChecks_metrics_shape pt nt inp a m
  refine ⟨?_, ?_, ?_, ?_⟩
  · rw [classifyCandidate_metrics_eq, mget_msetKey_of_ne _ _ _ _ (by decide), heq,
      mget_msetKey_of_ne _ _ _ _ (by decide), mget_msetKey_of_ne _ _ _ _ (by decide),
      mget_msetKey_of_ne _ _ _ _ (by decide), mget_msetKey_of_ne _ _ _ _ (by decide),
      mget_msetKey_self]
  · rw [classifyCandidate_metrics_eq, mget_msetKey_of_ne _ _ _ _ (by decide), heq,
      mget_msetKey_of_ne _ _ _ _ (by decide), mget_msetKey_of_ne _ _ _ _ (by decide),
      mget_msetKey_of_ne _ _ _ _ (by decide), mget_msetKey_self]
  · rw [classifyCandidate_metrics_eq, mget_msetKey_of_ne _ _ _ _ (by decide), heq,
      mget_msetKey_self]
  · exact ⟨_, by rw [classifyCandidate_metrics_eq, mget_msetKey_self]⟩

theorem expectedMoveGate_mget_of_ne (pt nt : ℚ) (inp : StockInput) (a : AnalysisOut)
    (m : Metrics) (k : MetricKey) (h1 : k ≠ .price) (h2 : k ≠ .volume)
    (h3 : k ≠ .win_rate) (h4 : k ≠ .win_quarters) (h5 : k ≠ .iv_rv_ratio)
    (h6 : k ≠ .tier) (h7 : k ≠ .expected_move_dollars) (h8 : k ≠ .expected_move_pct) :
    mget (expectedMoveGate pt nt inp a m).metrics k = mget m k := by
  cases hem : a.expected_move with
  | na =>
    simp only [expectedMoveGate, hem]
    exact softClassify_mget_of_ne pt nt inp a m k h1 h2 h3 h4 h5 h6
  | pct q =>
    simp only [expectedMoveGate, hem]
    split
    · rw [mget_msetKey_of_ne _ _ _ _ h8, mget_msetKey_of_ne _ _ _ _ h7]
    · rw [softClassify_mget_of_ne pt nt inp a _ k h1 h2 h3 h4 h5 h6,
        mget_msetKey_of_ne _ _ _ _ h8, mget_msetKey_of_ne _ _ _ _ h7]
  | unparsable =>
    simp only [expectedMoveGate, hem]
    cases hfs : inp.fallbackStraddle with
    | none =>
      simp only [hfs]
      exact softClassify_mget_of_ne pt nt inp a m k h1 h2 h3 h4 h5 h6
    | some s =>
      simp only [hfs]
      split
      · rw [mget_msetKey_of_ne _ _ _ _ h8, mget_msetKey_of_ne _ _ _ _ h7]
      · rw [softClassify_mget_of_ne pt nt inp a _ k h1 h2 h3 h4 h5 h6,
          mget_msetKey_of_ne _ _ _ _ h8, mget_msetKey_of_ne _ _ _ _ h7]

theorem expectedMoveGate_mget_price (pt nt : ℚ) (inp : StockInput) (a : AnalysisOut)
    (m : Metrics) (hm : mget m .price = some inp.price) :
    mget (expectedMoveGate pt nt inp a m).metrics .price = some inp.price := by
  cases hem : a.expected_move with
  | na =>
    simp only [expectedMoveGate, hem]
    exact (softClassify_mget_records pt nt inp a m).1
  | pct q =>
    simp only [expectedMoveGate, hem]
    split
    · rw [mget_msetKey_of_ne _ _ _ _ (by decide), mget_msetKey_of_ne _ _ _ _ (by decide)]
      exact hm
    · exact (softClassify_mget_records pt nt inp a _).1
  | unparsable =>
    simp only [expectedMoveGate, hem]
    cases hfs : inp.fallbackStraddle with
    | none =>
      simp only [hfs]
      exact (softClassify_mget_records pt nt inp a m).1
    | some s =>
      simp only [hfs]
      split
      · rw [mget_msetKey_of_ne _ _ _ _ (by decide), mget_msetKey_of_ne _ _ _ _ (by decide)]
        exact hm
      · exact (softClassify_mget_records pt nt inp a _).1

theorem deltaGate_mget_of_ne (pt nt : ℚ) (inp : StockInput) (a : AnalysisOut)
    (m : Metrics) (k : MetricKey) (h1 : k ≠ .price) (h2 : k ≠ .volume)
    (h3 : k ≠ .win_rate) (h4 : k ≠ .win_quarters) (h5 : k ≠ .iv_rv_ratio)
    (h6 : k ≠ .tier) (h7 : k ≠ .expected_move_dollars) (h8 : k ≠ .expected_move_pct)
    (h9 : k ≠ .atm_call_delta) (h10 : k ≠ .atm_put_delta) :
    mget (deltaGate pt nt inp a m).metrics k = mget m k := by
  rcases hc : a.atm_call_delta with _ | cd
  · rcases hp : a.atm_put_delta with _ | pd <;>
      simp only [deltaGate, hc, hp] <;>
      exact expectedMoveGate_mget_of_ne pt nt inp a m k h1 h2 h3 h4 h5 h6 h7 h8
  · rcases hp : a.atm_put_delta with _ | pd
    · simp only [deltaGate, hc, hp]
      exact expectedMoveGate_mget_of_ne pt nt inp a m k h1 h2 h3 h4 h5 h6 h7 h8
    · simp only [deltaGate, hc, hp]
      split
      · rw [mget_msetKey_of_ne _ _ _ _ h10, mget_msetKey_of_ne _ _ _ _ h9]
      · rw [expectedMoveGate_mget_of_ne pt nt inp a _ k h1 h2 h3 h4 h5 h6 h7 h8,
          mget_msetKey_of_ne _ _ _ _ h10, mget_msetKey_of_ne _ _ _ _ h9]

theorem deltaGate_mget_price (pt nt : ℚ) (inp : StockInput) (a : AnalysisOut)
    (m : Metrics) (hm : mget m .price = some inp.price) :
    mget (deltaGate pt nt inp a m).metrics .price = some inp.price := by
  rcases hc : a.atm_call_delta with _ | cd
  · rcases hp : a.atm_put_delta with _ | pd <;>
      simp only [deltaGate, hc, hp] <;>
      exact expectedMoveGate_mget_price pt nt inp a m hm
  · rcases hp : a.atm_put_delta with _ | pd
    · simp only [deltaGate, hc, hp]
      exact expectedMoveGate_mget_price pt nt inp a m hm
    · simp only [deltaGate, hc, hp]
      split
      · rw [mget_msetKey_of_ne _ _ _ _ (by decide), mget_msetKey_of_ne _ _ _ _ (by decide)]
        exact hm
      · refine expectedMoveGate_mget_price pt nt inp a _ ?_
        rw [mget_msetKey_of_ne _ _ _ _ (by decide), mget_msetKey_of_ne _ _ _ _ (by decide)]
        exact hm

theorem deltaGate_not_firing (pt nt : ℚ) (inp : StockInput) (a : AnalysisOut)
    (hdf : deltaGateFires a = false) (m : Metrics) :
    ∃ mb, deltaGate pt nt inp a m = expectedMoveGate pt nt inp a mb := by
  rcases hc : a.atm_call_delta with _ | cd
  · rcases hp : a.atm_put_delta with _ | pd <;>
      exact ⟨m, by simp only [deltaGate, hc, hp]⟩
  · rcases hp : a.atm_put_delta with _ | pd
    · exact ⟨m, by simp only [deltaGate, hc, hp]⟩
    · have hfire2 := hdf
      simp only [deltaGateFires, hc, hp, Bool.or_eq_false_iff,
        decide_eq_false_iff_not, not_lt] at hfire2
      refine ⟨msetKey (msetKey m .atm_call_delta cd) .atm_put_delta pd, ?_⟩
      simp only [deltaGate, hc, hp]
      rw [if_neg (not_or.mpr ⟨not_lt.mpr hfire2.1, not_lt.mpr hfire2.2⟩)]

theorem expectedMoveGate_not_firing (pt nt : ℚ) (inp : StockInput) (a : AnalysisOut)
    (hef : expectedMoveGateFires inp a = false) (m : Metrics) :
    ∃ mb, expectedMoveGate pt nt inp a m =
      classifyCandidate (softChecks pt nt inp a mb).1 (softChecks pt nt inp a mb).2.1
        a.term_slope (softChecks pt nt inp a mb).2.2 := by
  cases hem : a.expected_move with
  | na => exact ⟨m, by simp only [expectedMoveGate, hem]⟩
  | pct q =>
    have h2 := hef
    simp only [expectedMoveGateFires, hem, decide_eq_false_iff_not, not_lt] at h2
    refine ⟨msetKey (msetKey m .expected_move_dollars (inp.price * (q / 100)))
      .expected_move_pct (q / 100 * 100), ?_⟩
    simp only [expectedMoveGate, hem]
    rw [if_neg (not_lt.mpr h2)]
  | unparsable =>
    cases hfs : inp.fallbackStraddle with
    | none => exact ⟨m, by simp only [expectedMoveGate, hem, hfs]⟩
    | some s =>
      have h2 := hef
      simp only [expectedMoveGateFires, hem, hfs, decide_eq_false_iff_not, not_lt] at h2
      refine ⟨msetKey (msetKey m .expected_move_dollars s)
        .expected_move_pct (s / inp.price * 100), ?_⟩
      simp only [expectedMoveGate, hem, hfs]
      rw [if_neg (not_lt.mpr h2)]

theorem validate_stock_exits (pt nt : ℚ) (inp : StockInput) :
    (inp.price < 10 →
      validate_stock pt nt inp =
        { pass := false, tier := none, near_miss := false
          reason := .priceBelow10 inp.price, metrics := [(.price, inp.price)] })
    ∧ (¬ inp.price < 10 → inp.hasOptions = false →
      validate_stock pt nt inp =
        { pass := false, tier := none, near_miss := false
          reason := .noOptions, metrics := [(.price, inp.price)] })
    ∧ (¬ inp.price < 10 → inp.hasOptions = true → 9 < inp.daysToExpiry →
      validate_stock pt nt inp =
        { pass := false, tier := none, near_miss := false
          reason := .expiryTooFar inp.daysToExpiry
          metrics := [(.price, inp.price), (.days_to_expiry, (inp.daysToExpiry : ℚ))] })
    ∧ (¬ inp.price < 10 → inp.hasOptions = true → ¬ 9 < inp.daysToExpiry →
        inp.totalOI < 2000 →
      validate_stock pt nt inp =
        { pass := false, tier := none, near_miss := false
          reason := .lowOpenInterest inp.totalOI
          metrics := [(.price, inp.price), (.open_interest, inp.totalOI)] })
    ∧ (∀ e, ¬ inp.price < 10 → inp.hasOptions = true → ¬ 9 < inp.daysToExpiry →
        ¬ inp.totalOI < 2000 → inp.analysis = .error e →
      validate_stock pt nt inp =
        { pass := false, tier := none, near_miss := false
          reason := .analysisError e, metrics := [] })
    ∧ (∀ a, ¬ inp.price < 10 → inp.hasOptions = true → ¬ 9 < inp.daysToExpiry →
        ¬ inp.totalOI < 2000 → inp.analysis = .ok a → -4/1000 < a.term_slope →
      validate_stock pt nt inp =
        { pass := false, tier := none, near_miss := false
          reason := .termStructureFail a.term_slope
          metrics := [(.price, inp.price), (.open_interest, inp.totalOI),
            (.days_to_expiry, (inp.daysToExpiry : ℚ)), (.term_structure, a.term_slope)] })
    ∧ (∀ a, ¬ inp.price < 10 → inp.hasOptions = true → ¬ 9 < inp.daysToExpiry →
        ¬ inp.totalOI < 2000 → inp.analysis = .ok a → ¬ -4/1000 < a.term_slope →
      validate_stock pt nt inp = deltaGate pt nt inp a
        [(.price, inp.price), (.open_interest, inp.totalOI),
         (.days_to_expiry, (inp.daysToExpiry : ℚ)), (.term_structure, a.term_slope)]) := by
  refine ⟨fun h1 => ?_, fun h1 h2 => ?_, fun h1 h2 h3 => ?_, fun h1 h2 h3 h4 => ?_,
    fun e h1 h2 h3 h4 h5 => ?_, fun a h1 h2 h3 h4 h5 h6 => ?_,
    fun a h1 h2 h3 h4 h5 h6 => ?_⟩
  · simp [validate_stock, h1]
  · simp [validate_stock, h1, h2]
  · simp [validate_stock, h1, h2, h3]
  · simp [validate_stock, h1, h2, h3, h4]
  · simp [validate_stock, h1, h2, h3, h4, h5]
  · simp [validate_stock, msetKey, h1, h2, h3, h4, h5, h6]
  · simp only [validate_stock, msetKey, h5]
    rw [if_neg h1, if_neg (by simp [h2]), if_neg h3, if_neg h4, if_neg h6]
    simp [msetKey]

/-! ## Claim theorems -/

/-- C1: at the classification stage of validate_stock, tier is 1 exactly when
both the failed list and the near-miss list are empty; tier is 2 exactly when
the failed list is empty, the near-miss list is non-empty and the
term-structure slope is at most minus 0.006; near_miss holds exactly when the
failed list is empty and neither tier condition holds; and the pass flag
equals (tier = 1 or tier = 2). -/
theorem classification_tiers (failed near : List SoftMsg) (slope : ℚ) (m : Metrics) :
    ((classifyCandidate failed near slope m).tier = some 1 ↔ failed = [] ∧ near = [])
    ∧ ((classifyCandidate failed near slope m).tier = some 2 ↔
        failed = [] ∧ near ≠ [] ∧ slope ≤ -6/1000)
    ∧ ((classifyCandidate failed near slope m).near_miss = true ↔
        failed = [] ∧ ¬(failed = [] ∧ near = [])
          ∧ ¬(failed = [] ∧ near ≠ [] ∧ slope ≤ -6/1000))
    ∧ ((classifyCandidate failed near slope m).pass = true ↔
        (classifyCandidate failed near slope m).tier = some 1
        ∨ (classifyCandidate failed near slope m).tier = some 2) := by
  cases failed <;> cases near <;>
    by_cases h : slope ≤ -6/1000 <;>
      simp [classifyCandidate, h]

/-- C4: in compute_recommendation the reported IV/RV ratio is the sentinel
9999 whenever the historical volatility is non-positive (no division is
attempted), and equals iv30 divided by hist_vol whenever hist_vol is
positive. -/
theorem iv30_rv30_sentinel (iv30 hv : ℚ) :
    (hv ≤ 0 → iv30_rv30 iv30 hv = 9999) ∧ (0 < hv → iv30_rv30 iv30 hv = iv30 / hv) := by
  constructor
  · intro h; simp [iv30_rv30, not_lt.mpr h]
  · intro h; simp [iv30_rv30, h]

/-- C4 witness: concrete sentinel and ratio evaluations. -/
theorem iv30_rv30_sentinel_witness :
    iv30_rv30 3 0 = 9999 ∧ iv30_rv30 3 2 = 3 / 2 :=
  ⟨(iv30_rv30_sentinel 3 0).1 (by norm_num), (iv30_rv30_sentinel 3 2).2 (by norm_num)⟩

/-- C5: when the minimum days-to-expiration equals 45 the slope expression of
compute_recommendation divides by zero; there is no special case, so the
computation errors out (the `none` here is the ZeroDivisionError that the
enclosing handler turns into a structured error result) instead of producing
a defined slope. -/
theorem compute_term_slope_at_45 (term_spline_fn : ℚ → ℚ) :
    compute_term_slope term_spline_fn 45 = none := by
  simp [compute_term_slope]

/-- C7: the fallback warning of yang_zhang_volatility is a one-time latch
per analyzer instance: the flag starts false, the final flag is set exactly
when some call fell back and is never reset once true, a fresh instance emits
at most one warning over any call sequence, and an instance whose flag is
already set emits none. -/
theorem warning_latch (calls : List Bool) :
    OptionsAnalyzerState.mkNew.warnings_shown = false
    ∧ (∀ st : OptionsAnalyzerState,
        (yzWarnRun st calls).2.warnings_shown = (st.warnings_shown || calls.any id))
    ∧ ((yzWarnRun OptionsAnalyzerState.mkNew calls).1.count true ≤ 1)
    ∧ (∀ st : OptionsAnalyzerState, st.warnings_shown = true →
        (yzWarnRun st calls).1.count true = 0) :=
  ⟨rfl, yzWarnRun_flag calls, yzWarnRun_count_le calls OptionsAnalyzerState.mkNew,
    fun st h => yzWarnRun_silent calls st h⟩

/-- C7 witness: two consecutive fallbacks on a fresh instance warn exactly
once, and a latched instance stays silent. -/
theorem warning_latch_witness :
    (yzWarnRun OptionsAnalyzerState.mkNew [true, true]).1.count true ≤ 1
    ∧ (yzWarnRun ⟨true⟩ [true, true]).1.count true = 0 :=
  ⟨(warning_latch [true, true]).2.2.1, (warning_latch [true, true]).2.2.2 ⟨true⟩ rfl⟩

/-- C8 counterexample: with previously relaxed thresholds in place, a SPY
ratio above 1.0 leaves the relaxed values untouched; the result is not the
default pair (1.25, 1.00) the claim requires. -/
theorem adjust_thresholds_not_reset :
    adjust_thresholds_based_on_spy ⟨9/10, 13/20⟩ (.ok 2) = ⟨9/10, 13/20⟩
    ∧ adjust_thresholds_based_on_spy ⟨9/10, 13/20⟩ (.ok 2) ≠ scannerDefaults := by
  constructor
  · norm_num [adjust_thresholds_based_on_spy]
  · norm_num [adjust_thresholds_based_on_spy, scannerDefaults, ScannerThresholds.mk.injEq]

/-- C8 amended: the breakpoints map a ratio of at most 0.75 to (0.90, 0.65),
at most 0.85 to (1.00, 0.75), at most 1.00 to (1.10, 0.85); any larger ratio
leaves both thresholds exactly unchanged (they are the defaults 1.25/1.00
only if never previously adjusted), and a failed reference analysis leaves
them unchanged as well. -/
theorem adjust_thresholds_spec (st : ScannerThresholds) (r : ℚ) :
    (r ≤ 3/4 → adjust_thresholds_based_on_spy st (.ok r) = ⟨9/10, 13/20⟩)
    ∧ (3/4 < r → r ≤ 17/20 → adjust_thresholds_based_on_spy st (.ok r) = ⟨1, 3/4⟩)
    ∧ (17/20 < r → r ≤ 1 → adjust_thresholds_based_on_spy st (.ok r) = ⟨11/10, 17/20⟩)
    ∧ (1 < r → adjust_thresholds_based_on_spy st (.ok r) = st)
    ∧ (∀ e, adjust_thresholds_based_on_spy st (.error e) = st) := by
  refine ⟨fun h => ?_, fun h1 h2 => ?_, fun h1 h2 => ?_, fun h => ?_, fun e => rfl⟩
  · simp [adjust_thresholds_based_on_spy, h]
  · simp [adjust_thresholds_based_on_spy, not_le.mpr h1, h2]
  · have a1 : ¬ r ≤ 3/4 := not_le.mpr (lt_trans (by norm_num) h1)
    simp [adjust_thresholds_based_on_spy, a1, not_le.mpr h1, h2]
  · have a1 : ¬ r ≤ 3/4 := not_le.mpr (by linarith)
    have a2 : ¬ r ≤ 17/20 := not_le.mpr (by linarith)
    have a3 : ¬ r ≤ 1 := not_le.mpr h
    simp [adjust_thresholds_based_on_spy, a1, a2, a3]

/-- C8 amended witness: a severe-low ratio maps a non-default state to the
most relaxed pair. -/
theorem adjust_thresholds_spec_witness :
    adjust_thresholds_based_on_spy ⟨2, 2⟩ (.ok (1/2)) = ⟨9/10, 13/20⟩ :=
  (adjust_thresholds_spec ⟨2, 2⟩ (1/2)).1 (by norm_num)

/-- C10: a ticker that is empty or all whitespace makes
compute_recommendation return the structured error result before any
provider lookup, and any ticker that does reach a lookup is first stripped
of surrounding whitespace and upper-cased. -/
theorem ticker_normalisation :
    (∀ s : List Char, (∀ c ∈ s, c.isWhitespace) →
        compute_recommendation_entry s = .err "No symbol provided.")
    ∧ (∀ s sym, compute_recommendation_entry s = .lookup sym →
        sym = pyUpper (pyStrip s)) := by
  constructor
  · intro s hs
    have hdrop : s.dropWhile Char.isWhitespace = [] :=
      List.dropWhile_eq_nil_iff.mpr hs
    simp [compute_recommendation_entry, pyStrip, pyUpper, hdrop]
  · intro s sym h
    by_cases ht : pyUpper (pyStrip s) = []
    · simp [compute_recommendation_entry, ht] at h
    · simp [compute_recommendation_entry, ht] at h
      exact h.symm

/-- C10 witness: a whitespace ticker errors out; a lower-case ticker is
upper-cased for the lookup. -/
theorem ticker_normalisation_witness :
    compute_recommendation_entry [' ', '\t'] = .err "No symbol provided."
    ∧ (['A'] : List Char) = pyUpper (pyStrip [' ', 'a']) :=
  ⟨ticker_normalisation.1 [' ', '\t'] (by decide),
    ticker_normalisation.2 [' ', 'a'] ['A'] (by decide)⟩

/-- C2: validate_stock evaluates its hard gates in the fixed source order
(price, options availability, nearest expiration, open interest, analysis
success, term-structure slope, delta bounds when available, expected dollar
move), and the first failing hard gate returns immediately with pass and
near_miss false and a gate-specific reason, the later gates never being
evaluated (each early result below is fully determined by the fields the
gate has read). -/
theorem hard_gate_order (pt nt : ℚ) (inp : StockInput) :
    (inp.price < 10 →
      validate_stock pt nt inp =
        { pass := false, tier := none, near_miss := false
          reason := .priceBelow10 inp.price, metrics := [(.price, inp.price)] })
    ∧ (¬ inp.price < 10 → inp.hasOptions = false →
      validate_stock pt nt inp =
        { pass := false, tier := none, near_miss := false
          reason := .noOptions, metrics := [(.price, inp.price)] })
    ∧ (¬ inp.price < 10 → inp.hasOptions = true → 9 < inp.daysToExpiry →
      validate_stock pt nt inp =
        { pass := false, tier := none, near_miss := false
          reason := .expiryTooFar inp.daysToExpiry
          metrics := [(.price, inp.price), (.days_to_expiry, (inp.daysToExpiry : ℚ))] })
    ∧ (¬ inp.price < 10 → inp.hasOptions = true → ¬ 9 < inp.daysToExpiry →
        inp.totalOI < 2000 →
      validate_stock pt nt inp =
        { pass := false, tier := none, near_miss := false
          reason := .lowOpenInterest inp.totalOI
          metrics := [(.price, inp.price), (.open_interest, inp.totalOI)] })
    ∧ (∀ e, ¬ inp.price < 10 → inp.hasOptions = true → ¬ 9 < inp.daysToExpiry →
        ¬ inp.totalOI < 2000 → inp.analysis = .error e →
      validate_stock pt nt inp =
        { pass := false, tier := none, near_miss := false
          reason := .analysisError e, metrics := [] })
    ∧ (∀ a, ¬ inp.price < 10 → inp.hasOptions = true → ¬ 9 < inp.daysToExpiry →
        ¬ inp.totalOI < 2000 → inp.analysis = .ok a → -4/1000 < a.term_slope →
      validate_stock pt nt inp =
        { pass := false, tier := none, near_miss := false
          reason := .termStructureFail a.term_slope
          metrics := [(.price, inp.price), (.open_interest, inp.totalOI),
            (.days_to_expiry, (inp.daysToExpiry : ℚ)), (.term_structure, a.term_slope)] })
    ∧ (∀ a cd pd, ¬ inp.price < 10 → inp.hasOptions = true → ¬ 9 < inp.daysToExpiry →
        ¬ inp.totalOI < 2000 → inp.analysis = .ok a → ¬ -4/1000 < a.term_slope →
        a.atm_call_delta = some cd → a.atm_put_delta = some pd →
        (57/100 < cd ∨ 57/100 < |pd|) →
      (validate_stock pt nt inp).pass = false
      ∧ (validate_stock pt nt inp).near_miss = false
      ∧ (validate_stock pt nt inp).reason = .deltaBounds cd pd)
    ∧ (∀ a q, ¬ inp.price < 10 → inp.hasOptions = true → ¬ 9 < inp.daysToExpiry →
        ¬ inp.totalOI < 2000 → inp.analysis = .ok a → ¬ -4/1000 < a.term_slope →
        deltaGateFires a = false → a.expected_move = .pct q →
        inp.price * (q / 100) < 9/10 →
      (validate_stock pt nt inp).pass = false
      ∧ (validate_stock pt nt inp).near_miss = false
      ∧ (validate_stock pt nt inp).reason = .expectedMoveLow (inp.price * (q / 100))) := by
  have ex := validate_stock_exits pt nt inp
  refine ⟨ex.1, ex.2.1, ex.2.2.1, ex.2.2.2.1, ex.2.2.2.2.1, ex.2.2.2.2.2.1, ?_, ?_⟩
  · intro a cd pd h1 h2 h3 h4 h5 h6 hcd hpd hfire
    rw [ex.2.2.2.2.2.2 a h1 h2 h3 h4 h5 h6]
    simp only [deltaGate, hcd, hpd]
    rw [if_pos hfire]
    exact ⟨rfl, rfl, rfl⟩
  · intro a q h1 h2 h3 h4 h5 h6 hfire hem hlow
    rw [ex.2.2.2.2.2.2 a h1 h2 h3 h4 h5 h6]
    obtain ⟨mb, hmb⟩ := deltaGate_not_firing pt nt inp a hfire _
    rw [hmb]
    simp only [expectedMoveGate, hem]
    rw [if_pos hlow]
    exact ⟨rfl, rfl, rfl⟩

/-- C2 witness: a below-price candidate exits at the first gate with the
price reason, and a candidate with sufficient price but thin open interest
exits at the open-interest gate. -/
theorem hard_gate_order_witness :
    validate_stock (5/4) 1 ⟨5, false, 20, 0, .error "x", none, 0, 0, 0⟩ =
      { pass := false, tier := none, near_miss := false
        reason := .priceBelow10 5, metrics := [(.price, 5)] }
    ∧ validate_stock (5/4) 1 ⟨20, true, 5, 100, .error "x", none, 0, 0, 0⟩ =
      { pass := false, tier := none, near_miss := false
        reason := .lowOpenInterest 100, metrics := [(.price, 20), (.open_interest, 100)] } :=
  ⟨(hard_gate_order (5/4) 1 _).1 (by norm_num),
    (hard_gate_order (5/4) 1 _).2.2.2.1 (by norm_num) rfl (by norm_num) (by norm_num)⟩

/-- C9 counterexample: a candidate that clears the price, options,
expiration and open-interest gates but whose analysis returns an error gets
an empty metrics map back: the price, open interest and days-to-expiry
computed before that exit are all dropped, contradicting the claim. -/
theorem metrics_dropped_on_analysis_error :
    validate_stock (5/4) 1 ⟨20, true, 5, 3000, .error "no data", none, 2000000, 55, 8⟩ =
      { pass := false, tier := none, near_miss := false
        reason := .analysisError "no data", metrics := [] }
    ∧ mget (validate_stock (5/4) 1
        ⟨20, true, 5, 3000, .error "no data", none, 2000000, 55, 8⟩).metrics .price = none := by
  have h : validate_stock (5/4) 1 ⟨20, true, 5, 3000, .error "no data", none, 2000000, 55, 8⟩ =
      { pass := false, tier := none, near_miss := false
        reason := .analysisError "no data", metrics := [] } := by
    norm_num [validate_stock]
  exact ⟨h, by rw [h]; rfl⟩

/-- C9 amended: each exit of validate_stock carries exactly the metrics the
code attaches at that return site: the price and options gates return the
price; the expiration gate adds days-to-expiry; the open-interest gate
returns price and open interest but omits the already-computed
days-to-expiry; the analysis-error exit returns an empty metrics map,
dropping everything; the term-structure exit returns the accumulated map;
and every exit beyond the term-structure gate (the delta-bounds exit, the
expected-move exits and the final classification) preserves the accumulated
price, open interest, days-to-expiry and slope and adds the values recorded
at that stage (the deltas when available, the expected-move dollars and
percentage, and the volume, IV/RV ratio and tier at classification). -/
theorem metrics_at_exits (pt nt : ℚ) (inp : StockInput) :
    (inp.price < 10 → mget (validate_stock pt nt inp).metrics .price = some inp.price)
    ∧ (¬ inp.price < 10 → inp.hasOptions = false →
        mget (validate_stock pt nt inp).metrics .price = some inp.price)
    ∧ (¬ inp.price < 10 → inp.hasOptions = true → 9 < inp.daysToExpiry →
        mget (validate_stock pt nt inp).metrics .price = some inp.price
        ∧ mget (validate_stock pt nt inp).metrics .days_to_expiry
            = some (inp.daysToExpiry : ℚ))
    ∧ (¬ inp.price < 10 → inp.hasOptions = true → ¬ 9 < inp.daysToExpiry →
        inp.totalOI < 2000 →
        mget (validate_stock pt nt inp).metrics .price = some inp.price
        ∧ mget (validate_stock pt nt inp).metrics .open_interest = some inp.totalOI
        ∧ mget (validate_stock pt nt inp).metrics .days_to_expiry = none)
    ∧ (∀ e, ¬ inp.price < 10 → inp.hasOptions = true → ¬ 9 < inp.daysToExpiry →
        ¬ inp.totalOI < 2000 → inp.analysis = .error e →
        (validate_stock pt nt inp).metrics = [])
    ∧ (∀ a, ¬ inp.price < 10 → inp.hasOptions = true → ¬ 9 < inp.daysToExpiry →
        ¬ inp.totalOI < 2000 → inp.analysis = .ok a → -4/1000 < a.term_slope →
        mget (validate_stock pt nt inp).metrics .price = some inp.price
        ∧ mget (validate_stock pt nt inp).metrics .open_interest = some inp.totalOI
        ∧ mget (validate_stock pt nt inp).metrics .days_to_expiry
            = some (inp.daysToExpiry : ℚ)
        ∧ mget (validate_stock pt nt inp).metrics .term_structure = some a.term_slope)
    ∧ (∀ a, ¬ inp.price < 10 → inp.hasOptions = true → ¬ 9 < inp.daysToExpiry →
        ¬ inp.totalOI < 2000 → inp.analysis = .ok a → ¬ -4/1000 < a.term_slope →
        mget (validate_stock pt nt inp).metrics .price = some inp.price
        ∧ mget (validate_stock pt nt inp).metrics .open_interest = some inp.totalOI
        ∧ mget (validate_stock pt nt inp).metrics .days_to_expiry
            = some (inp.daysToExpiry : ℚ)
        ∧ mget (validate_stock pt nt inp).metrics .term_structure = some a.term_slope)
    ∧ (∀ a cd pd, ¬ inp.price < 10 → inp.hasOptions = true → ¬ 9 < inp.daysToExpiry →
        ¬ inp.totalOI < 2000 → inp.analysis = .ok a → ¬ -4/1000 < a.term_slope →
        a.atm_call_delta = some cd → a.atm_put_delta = some pd →
        (57/100 < cd ∨ 57/100 < |pd|) →
        mget (validate_stock pt nt inp).metrics .atm_call_delta = some cd
        ∧ mget (validate_stock pt nt inp).metrics .atm_put_delta = some pd)
    ∧ (∀ a cd pd, ¬ inp.price < 10 → inp.hasOptions = true → ¬ 9 < inp.daysToExpiry →
        ¬ inp.totalOI < 2000 → inp.analysis = .ok a → ¬ -4/1000 < a.term_slope →
        deltaGateFires a = false →
        a.atm_call_delta = some cd → a.atm_put_delta = some pd →
        mget (validate_stock pt nt inp).metrics .atm_call_delta = some cd
        ∧ mget (validate_stock pt nt inp).metrics .atm_put_delta = some pd)
    ∧ (∀ a q, ¬ inp.price < 10 → inp.hasOptions = true → ¬ 9 < inp.daysToExpiry →
        ¬ inp.totalOI < 2000 → inp.analysis = .ok a → ¬ -4/1000 < a.term_slope →
        deltaGateFires a = false → a.expected_move = .pct q →
        inp.price * (q / 100) < 9/10 →
        mget (validate_stock pt nt inp).metrics .expected_move_dollars
            = some (inp.price * (q / 100))
        ∧ mget (validate_stock pt nt inp).metrics .expected_move_pct
            = some (q / 100 * 100))
    ∧ (∀ a s, ¬ inp.price < 10 → inp.hasOptions = true → ¬ 9 < inp.daysToExpiry →
        ¬ inp.totalOI < 2000 → inp.analysis = .ok a → ¬ -4/1000 < a.term_slope →
        deltaGateFires a = false → a.expected_move = .unparsable →
        inp.fallbackStraddle = some s → s < 9/10 →
        mget (validate_stock pt nt inp).metrics .expected_move_dollars = some s
        ∧ mget (validate_stock pt nt inp).metrics .expected_move_pct
            = some (s / inp.price * 100))
    ∧ (∀ a, ¬ inp.price < 10 → inp.hasOptions = true → ¬ 9 < inp.daysToExpiry →
        ¬ inp.totalOI < 2000 → inp.analysis = .ok a → ¬ -4/1000 < a.term_slope →
        deltaGateFires a = false → expectedMoveGateFires inp a = false →
        mget (validate_stock pt nt inp).metrics .volume = some inp.avgVolume
        ∧ mget (validate_stock pt nt inp).metrics .iv_rv_ratio = some a.iv30_rv30
        ∧ (∃ t, mget (validate_stock pt nt inp).metrics .tier = some t)) := by
  have ex := validate_stock_exits pt nt inp
  refine ⟨fun h1 => ?_, fun h1 h2 => ?_, fun h1 h2 h3 => ?_, fun h1 h2 h3 h4 => ?_,
    fun e h1 h2 h3 h4 h5 => ?_, fun a h1 h2 h3 h4 h5 h6 => ?_,
    fun a h1 h2 h3 h4 h5 h6 => ?_,
    fun a cd pd h1 h2 h3 h4 h5 h6 hcd hpd hfire => ?_,
    fun a cd pd h1 h2 h3 h4 h5 h6 hdf hcd hpd => ?_,
    fun a q h1 h2 h3 h4 h5 h6 hdf hem hlow => ?_,
    fun a s h1 h2 h3 h4 h5 h6 hdf hem hfs hlow => ?_,
    fun a h1 h2 h3 h4 h5 h6 hdf hef => ?_⟩
  · rw [ex.1 h1]; rfl
  · rw [ex.2.1 h1 h2]; rfl
  · rw [ex.2.2.1 h1 h2 h3]; exact ⟨rfl, rfl⟩
  · rw [ex.2.2.2.1 h1 h2 h3 h4]; exact ⟨rfl, rfl, rfl⟩
  · rw [ex.2.2.2.2.1 e h1 h2 h3 h4 h5]
  · rw [ex.2.2.2.2.2.1 a h1 h2 h3 h4 h5 h6]; exact ⟨rfl, rfl, rfl, rfl⟩
  · rw [ex.2.2.2.2.2.2 a h1 h2 h3 h4 h5 h6]
    refine ⟨deltaGate_mget_price pt nt inp a _ rfl, ?_, ?_, ?_⟩
    · rw [deltaGate_mget_of_ne pt nt inp a _ _ (by decide) (by decide) (by decide)
        (by decide) (by decide) (by decide) (by decide) (by decide) (by decide)
        (by decide)]
      rfl
    · rw [deltaGate_mget_of_ne pt nt inp a _ _ (by decide) (by decide) (by decide)
        (by decide) (by decide) (by decide) (by decide) (by decide) (by decide)
        (by decide)]
      rfl
    · rw [deltaGate_mget_of_ne pt nt inp a _ _ (by decide) (by decide) (by decide)
        (by decide) (by decide) (by decide) (by decide) (by decide) (by decide)
        (by decide)]
      rfl
  · rw [ex.2.2.2.2.2.2 a h1 h2 h3 h4 h5 h6]
    simp only [deltaGate, hcd, hpd]
    rw [if_pos hfire]
    constructor
    · exact (mget_msetKey_of_ne _ _ _ _ (by decide)).trans (mget_msetKey_self _ _ _)
    · exact mget_msetKey_self _ _ _
  · rw [ex.2.2.2.2.2.2 a h1 h2 h3 h4 h5 h6]
    have hfire2 := hdf
    simp only [deltaGateFires, hcd, hpd, Bool.or_eq_false_iff,
      decide_eq_false_iff_not, not_lt] at hfire2
    have hred : deltaGate pt nt inp a
        [(.price, inp.price), (.open_interest, inp.totalOI),
         (.days_to_expiry, (inp.daysToExpiry : ℚ)), (.term_structure, a.term_slope)]
        = expectedMoveGate pt nt inp a
          (msetKey (msetKey [(.price, inp.price), (.open_interest, inp.totalOI),
            (.days_to_expiry, (inp.daysToExpiry : ℚ)), (.term_structure, a.term_slope)]
            .atm_call_delta cd) .atm_put_delta pd) := by
      simp only [deltaGate, hcd, hpd]
      rw [if_neg (not_or.mpr ⟨not_lt.mpr hfire2.1, not_lt.mpr hfire2.2⟩)]
    rw [hred]
    constructor
    · rw [expectedMoveGate_mget_of_ne pt nt inp a _ _ (by decide) (by decide)
        (by decide) (by decide) (by decide) (by decide) (by decide) (by decide),
        mget_msetKey_of_ne _ _ _ _ (by decide), mget_msetKey_self]
    · rw [expectedMoveGate_mget_of_ne pt nt inp a _ _ (by decide) (by decide)
        (by decide) (by decide) (by decide) (by decide) (by decide) (by decide),
        mget_msetKey_self]
  · rw [ex.2.2.2.2.2.2 a h1 h2 h3 h4 h5 h6]
    obtain ⟨mb, hmb⟩ := deltaGate_not_firing pt nt inp a hdf _
    rw [hmb]
    simp only [expectedMoveGate, hem]
    rw [if_pos hlow]
    constructor
    · exact (mget_msetKey_of_ne _ _ _ _ (by decide)).trans (mget_msetKey_self _ _ _)
    · exact mget_msetKey_self _ _ _
  · rw [ex.2.2.2.2.2.2 a h1 h2 h3 h4 h5 h6]
    obtain ⟨mb, hmb⟩ := deltaGate_not_firing pt nt inp a hdf _
    rw [hmb]
    simp only [expectedMoveGate, hem, hfs]
    rw [if_pos hlow]
    constructor
    · exact (mget_msetKey_of_ne _ _ _ _ (by decide)).trans (mget_msetKey_self _ _ _)
    · exact mget_msetKey_self _ _ _
  · rw [ex.2.2.2.2.2.2 a h1 h2 h3 h4 h5 h6]
    obtain ⟨mb, hmb⟩ := deltaGate_not_firing pt nt inp a hdf _
    rw [hmb]
    obtain ⟨mc, hmc⟩ := expectedMoveGate_not_firing pt nt inp a hef _
    rw [hmc]
    exact ⟨(softClassify_mget_records pt nt inp a mc).2.1,
      (softClassify_mget_records pt nt inp a mc).2.2.1,
      (softClassify_mget_records pt nt inp a mc).2.2.2⟩

/-- C9 amended witness: at the open-interest exit the metrics hold price and
open interest while days-to-expiry is absent. -/
theorem metrics_at_exits_witness :
    mget (validate_stock (5/4) 1 ⟨20, true, 5, 100, .error "x", none, 0, 0, 0⟩).metrics
      .open_interest = some 100
    ∧ mget (validate_stock (5/4) 1 ⟨20, true, 5, 100, .error "x", none, 0, 0, 0⟩).metrics
      .days_to_expiry = none := by
  have h := (metrics_at_exits (5/4) 1 ⟨20, true, 5, 100, .error "x", none, 0, 0, 0⟩).2.2.2.1
    (by norm_num) rfl (by norm_num) (by norm_num)
  exact ⟨h.2.1, h.2.2⟩

/-- C3 counterexample: on the sample points (7, 0.50), (30, 0.40),
(60, 0.35) the interpolant evaluates at 45 to exactly 0.375, which is not
within 0.001 of the 0.3667 the claim expects. -/
theorem interp_at_45_is_0375 :
    tsQuery [7, 30, 60] [1/2, 2/5, 7/20] 45 = some (3/8)
    ∧ ¬ |(3/8 : ℚ) - 3667/10000| ≤ 1/1000 := by
  constructor
  · norm_num [tsQuery, build_term_structure, sortedPoints, term_spline, interpSorted,
      List.insertionSort, List.orderedInsert, pointLE, List.zip, List.zipWith,
      List.getLastD]
  · rw [abs_of_pos (by norm_num)]
    norm_num

/-- C3 amended: for any collection of at least two (days, iv) points the
builder returns an interpolant; queried below every sample day it returns
the iv of a minimum-day sample, queried above every sample day the iv of a
maximum-day sample, and queried strictly between two adjacent sorted samples
it linearly interpolates them; on the concrete points (7, 0.50), (30, 0.40),
(60, 0.35) the value at 30 is exactly 0.40 and the value at 45 is exactly
0.375 (not 0.3667). -/
theorem term_structure_shape (days ivs : List ℚ)
    (h2 : 2 ≤ days.length) (hlen : days.length = ivs.length) :
    (build_term_structure days ivs
        = some (fun x => term_spline (sortedPoints days ivs) x))
    ∧ (∀ x, (∀ d ∈ days, x < d) → ∃ p, p ∈ days.zip ivs ∧
        (∀ q ∈ days.zip ivs, p.1 ≤ q.1)
        ∧ term_spline (sortedPoints days ivs) x = p.2)
    ∧ (∀ x, (∀ d ∈ days, d < x) → ∃ p, p ∈ days.zip ivs ∧
        (∀ q ∈ days.zip ivs, q.1 ≤ p.1)
        ∧ term_spline (sortedPoints days ivs) x = p.2)
    ∧ (∀ x p q l₁ l₂, sortedPoints days ivs = l₁ ++ p :: q :: l₂ →
        p.1 < x → x < q.1 →
        term_spline (sortedPoints days ivs) x
          = p.2 + (x - p.1) * (q.2 - p.2) / (q.1 - p.1))
    ∧ (tsQuery [7, 30, 60] [1/2, 2/5, 7/20] 30 = some (2/5)
        ∧ tsQuery [7, 30, 60] [1/2, 2/5, 7/20] 45 = some (3/8)) := by
  have hperm : List.Perm (sortedPoints days ivs) (days.zip ivs) :=
    List.perm_insertionSort pointLE (days.zip ivs)
  have hsorted : List.Sorted pointLE (sortedPoints days ivs) :=
    List.sorted_insertionSort pointLE (days.zip ivs)
  have hzlen : (days.zip ivs).length = days.length := by
    rw [List.length_zip, hlen, min_self]
  refine ⟨?_, ?_, ?_, ?_, ?_, ?_⟩
  · rw [build_term_structure, if_neg (not_lt.mpr h2)]
  · intro x hx
    cases hpts : sortedPoints days ivs with
    | nil =>
      exfalso
      have hl := hperm.length_eq
      rw [hpts, hzlen] at hl
      simp at hl
      omega
    | cons p0 rest =>
      have hp0zip : p0 ∈ days.zip ivs := by
        refine hperm.subset ?_
        rw [hpts]
        exact List.mem_cons_self p0 rest
      have hpin : p0.1 ∈ days := by
        rcases hq0 : p0 with ⟨pd, pv⟩
        rw [hq0] at hp0zip
        exact (List.of_mem_zip hp0zip).1
      refine ⟨p0, hp0zip, ?_, ?_⟩
      · intro qq hqq
        have hqmem : qq ∈ p0 :: rest := by
          rw [← hpts]
          exact hperm.mem_iff.mpr hqq
        rcases List.mem_cons.mp hqmem with h | h
        · rw [h]
        · exact List.rel_of_sorted_cons (hpts ▸ hsorted) qq h
      · show (if x < p0.1 then p0.2
          else if (rest.getLastD p0).1 < x then (rest.getLastD p0).2
          else interpSorted (p0 :: rest) x) = p0.2
        rw [if_pos (hx p0.1 hpin)]
  · intro x hx
    cases hpts : sortedPoints days ivs with
    | nil =>
      exfalso
      have hl := hperm.length_eq
      rw [hpts, hzlen] at hl
      simp at hl
      omega
    | cons p0 rest =>
      have hsortc : List.Sorted pointLE (p0 :: rest) := hpts ▸ hsorted
      have hlmem : rest.getLastD p0 ∈ p0 :: rest := List.getLastD_mem_cons rest p0
      have hlzip : rest.getLastD p0 ∈ days.zip ivs := by
        refine hperm.subset ?_
        rw [hpts]
        exact hlmem
      have hlin : (rest.getLastD p0).1 ∈ days := by
        rcases hq0 : rest.getLastD p0 with ⟨ld, lv⟩
        rw [hq0] at hlzip
        exact (List.of_mem_zip hlzip).1
      have hp0zip : p0 ∈ days.zip ivs := by
        refine hperm.subset ?_
        rw [hpts]
        exact List.mem_cons_self p0 rest
      have hp0in : p0.1 ∈ days := by
        rcases hq0 : p0 with ⟨pd, pv⟩
        rw [hq0] at hp0zip
        exact (List.of_mem_zip hp0zip).1
      refine ⟨rest.getLastD p0, hlzip, ?_, ?_⟩
      · intro qq hqq
        have hqmem : qq ∈ p0 :: rest := by
          rw [← hpts]
          exact hperm.mem_iff.mpr hqq
        exact sorted_le_getLastD rest p0 hsortc qq hqmem
      · show (if x < p0.1 then p0.2
          else if (rest.getLastD p0).1 < x then (rest.getLastD p0).2
          else interpSorted (p0 :: rest) x) = (rest.getLastD p0).2
        rw [if_neg (not_lt.mpr (le_of_lt (hx p0.1 hp0in))), if_pos (hx _ hlin)]
  · intro x p q l₁ l₂ heq hp hq
    have hs2 : List.Sorted pointLE (l₁ ++ p :: q :: l₂) := heq ▸ hsorted
    rw [heq]
    exact term_spline_adjacent x l₁ p q l₂ hs2 hp hq
  · norm_num [tsQuery, build_term_structure, sortedPoints, term_spline, interpSorted,
      List.insertionSort, List.orderedInsert, pointLE, List.zip, List.zipWith,
      List.getLastD]
  · norm_num [tsQuery, build_term_structure, sortedPoints, term_spline, interpSorted,
      List.insertionSort, List.orderedInsert, pointLE, List.zip, List.zipWith,
      List.getLastD]

/-- C3 amended witness: the concrete interpolant of the sample points,
evaluated at 30 and at 45. -/
theorem term_structure_shape_witness :
    tsQuery [7, 30, 60] [1/2, 2/5, 7/20] 30 = some (2/5)
    ∧ tsQuery [7, 30, 60] [1/2, 2/5, 7/20] 45 = some (3/8) :=
  (term_structure_shape [7, 30, 60] [1/2, 2/5, 7/20] (by norm_num)
    (by norm_num)).2.2.2.2

/-- C6 counterexample: a three-bar series with constant daily returns of
factor e (prices 1, e, e squared, with open = high = low = close per bar) and
window 2 has zero variance of returns, yet the estimator returns a strictly
positive value, because the implementation sums raw squared log-returns
without subtracting their mean. -/
theorem yang_zhang_nonzero_constant_returns :
    yang_zhang_volatility Real.log Real.sqrt 2 1
      [⟨Real.exp 0, Real.exp 0, Real.exp 0, Real.exp 0⟩,
       ⟨Real.exp 1, Real.exp 1, Real.exp 1, Real.exp 1⟩,
       ⟨Real.exp 2, Real.exp 2, Real.exp 2, Real.exp 2⟩] ≠ 0 := by
  have hne : ∀ t : ℝ, Real.exp t ≠ 0 := fun t => Real.exp_ne_zero t
  simp only [yang_zhang_volatility, List.zip, List.zipWith, List.tail, List.map,
    lastWindowSum, List.length_cons, List.length_nil, List.drop, List.sum_cons,
    List.sum_nil, div_self (hne 0), div_self (hne 1), div_self (hne 2), Real.log_one]
  rw [show Real.exp 1 / Real.exp 0 = Real.exp 1 by rw [Real.exp_zero, div_one]]
  rw [show Real.exp 2 / Real.exp 1 = Real.exp 1 by
    rw [← Real.exp_sub]; norm_num]
  rw [Real.log_exp, Real.sqrt_one, mul_one]
  refine ne_of_gt (Real.sqrt_pos.mpr ?_)
  norm_num

/-- C6 amended: for every price series with all daily returns zero, that is
constant prices (every bar equal with open = high = low = close at a
non-zero price), long enough for the window, the estimator returns exactly
zero: every log term vanishes, so the blended variance is zero and so is its
square root. -/
theorem yang_zhang_zero_on_constant_prices (p : ℝ) (w : ℕ) (periods : ℝ)
    (bars : List (OHLC ℝ)) (hp : p ≠ 0) (hw : 2 ≤ w) (hlen : w + 1 ≤ bars.length)
    (hconst : ∀ b ∈ bars, b = ⟨p, p, p, p⟩) :
    yang_zhang_volatility Real.log Real.sqrt w periods bars = 0 := by
  have hmem : ∀ pc ∈ bars.zip bars.tail, pc.1 ∈ bars ∧ pc.2 ∈ bars := by
    intro pc hpc
    rcases pc with ⟨b1, b2⟩
    exact ⟨(List.of_mem_zip hpc).1, List.mem_of_mem_tail (List.of_mem_zip hpc).2⟩
  have hoc : lastWindowSum w ((bars.zip bars.tail).map
      (fun pc => Real.log (pc.2.op / pc.1.cl) ^ 2)) = 0 := by
    refine List.sum_eq_zero ?_
    intro x hx
    obtain ⟨pc, hpc, rfl⟩ := List.mem_map.mp (List.mem_of_mem_drop hx)
    obtain ⟨h1, h2⟩ := hmem pc hpc
    rw [hconst pc.1 h1, hconst pc.2 h2]
    simp [div_self hp]
  have hcc : lastWindowSum w ((bars.zip bars.tail).map
      (fun pc => Real.log (pc.2.cl / pc.1.cl) ^ 2)) = 0 := by
    refine List.sum_eq_zero ?_
    intro x hx
    obtain ⟨pc, hpc, rfl⟩ := List.mem_map.mp (List.mem_of_mem_drop hx)
    obtain ⟨h1, h2⟩ := hmem pc hpc
    rw [hconst pc.1 h1, hconst pc.2 h2]
    simp [div_self hp]
  have hrs : lastWindowSum w (bars.map (fun b =>
      Real.log (b.hi / b.op) * (Real.log (b.hi / b.op) - Real.log (b.cl / b.op)) +
        Real.log (b.lo / b.op) * (Real.log (b.lo / b.op) - Real.log (b.cl / b.op)))) = 0 := by
    refine List.sum_eq_zero ?_
    intro x hx
    obtain ⟨b, hb, rfl⟩ := List.mem_map.mp (List.mem_of_mem_drop hx)
    rw [hconst b hb]
    simp [div_self hp]
  simp only [yang_zhang_volatility]
  rw [hoc, hcc, hrs]
  simp

/-- C6 amended witness: a constant three-bar series at price 2 with window 2
and 252 annualisation periods evaluates to zero. -/
theorem yang_zhang_zero_witness :
    yang_zhang_volatility Real.log Real.sqrt 2 252
      ([⟨2, 2, 2, 2⟩, ⟨2, 2, 2, 2⟩, ⟨2, 2, 2, 2⟩] : List (OHLC ℝ)) = 0 :=
  yang_zhang_zero_on_constant_prices 2 2 252 _ (by norm_num) (by norm_num)
    (by norm_num)
    (by
      intro b hb
      simp only [List.mem_cons, List.not_mem_nil, or_false] at hb
      rcases hb with rfl | rfl | rfl <;> rfl)

end EarningsEdge
